import Mathlib

/-!
# Verification of the speech-bubble detection decoding pipeline

Shallow embedding of the instance-segmentation decoding pipeline of
`src/utils/yolo-inference.ts` (duplicated in the offscreen-document variants):
the output decoder `parseOutput`, the mask reconstruction and cropping, the
polygon extractor `maskToSvgPath`, the IoU computation `calculateIoU`, the
greedy suppressor `nms`, and the pure core of the orchestrator `detectBubbles`.

Modelling conventions:
* JavaScript double-precision numbers are modelled as rationals (`ℚ`).  Lean's
  rational division is total with `x / 0 = 0`; where the source can divide by
  zero (IEEE `0/0 = NaN`) the denominator is exposed as its own definition
  (`iouUnion`) so that the divide-by-zero event itself is provable.
* `Float32Array`/dims reads are modelled by `List.getD _ _ 0`; theorems about
  well-formed tensors only exercise in-bounds reads.
* The two float transcendentals of the source, `sigmoid` (`1/(1+e^-x)`) and
  the `Math.atan2` centroid-angle comparator used to order polygon points,
  have no computable realization on `ℚ`.  The pipeline is parametric in a
  `FloatOracles` bundle standing for them; every theorem below is uniform in
  the bundle (none depends on actual sigmoid/atan2 values), and concrete
  instantiations are only used at inputs where the oracle value either does
  not matter or is the exact value of the source function (sigmoid 0 = 1/2).
-/

namespace XSanctuary

/-- `INPUT_SIZE = 640`, the fixed square model-input size. -/
def INPUT_SIZE : ℚ := 640

/-- Pixel-space bounding box `{x1, y1, x2, y2}` of a detection. -/
structure BBox where
  x1 : ℚ
  y1 : ℚ
  x2 : ℚ
  y2 : ℚ
deriving DecidableEq, Repr, Inhabited

/-- The `BubbleDetection` record emitted by the decoder: normalized center /
size, confidence, pixel bounding box, and the optional mask path
(`maskPath?: string` in the source; `none` models the absent field). -/
structure BubbleDetection where
  x : ℚ
  y : ℚ
  width : ℚ
  height : ℚ
  confidence : ℚ
  bbox : BBox
  maskPath : Option String
deriving DecidableEq, Repr, Inhabited

/-- A raw ONNX output tensor: flat data buffer plus its dims. -/
structure OrtTensor where
  data : List ℚ
  dims : List ℕ
deriving DecidableEq, Repr, Inhabited

/-- The float transcendentals of the source that have no computable rational
realization: `sigmoid(x) = 1/(1+Math.exp(-x))` and the comparator
`atan2(a.y-cy, a.x-cx) - atan2(b.y-cy, b.x-cx) ≤ 0` used to sort polygon
points around the centroid (first argument).  All claim theorems hold for
every bundle. -/
structure FloatOracles where
  sigmoid : ℚ → ℚ
  angleLe : ℚ × ℚ → ℚ × ℚ → ℚ × ℚ → Bool

/-- An arbitrary concrete oracle bundle, used only in closed instantiations
where the result is oracle-independent or every `sigmoid` call happens at
input `0`, where the source sigmoid is exactly `1/2`. -/
def trivOracles : FloatOracles where
  sigmoid := fun _ => 1 / 2
  angleLe := fun _ _ _ => true

/-! ## IoU and greedy NMS (`calculateIoU`, `nms`) -/

/-- `(bbox.x2 - bbox.x1) * (bbox.y2 - bbox.y1)`, the (signed) box area used by
`calculateIoU` for each argument. -/
def bboxArea (b : BBox) : ℚ :=
  (b.x2 - b.x1) * (b.y2 - b.y1)

/-- The intersection area of `calculateIoU`:
`Math.max(0, x2 - x1) * Math.max(0, y2 - y1)` over the intersection corners. -/
def iouIntersection (a b : BBox) : ℚ :=
  max 0 (min a.x2 b.x2 - max a.x1 b.x1) * max 0 (min a.y2 b.y2 - max a.y1 b.y1)

/-- The union area `areaA + areaB - intersection` that `calculateIoU` divides
by.  Exposed as its own definition: the source has no guard against this
being zero. -/
def iouUnion (a b : BBox) : ℚ :=
  bboxArea a + bboxArea b - iouIntersection a b

/-- `calculateIoU`: `intersection / union`.  Over `ℚ`, division by a zero
union yields `0`; in the source (IEEE doubles) a zero union yields `0/0 = NaN`
-- see `iouUnion` and the degenerate-box theorems. -/
def calculateIoU (a b : BubbleDetection) : ℚ :=
  iouIntersection a.bbox b.bbox / iouUnion a.bbox b.bbox

/-- The suppression loop of `nms`, on the confidence-sorted list.  Keeping the
head `b` marks every later candidate `c` with `calculateIoU b c > thr` as
used (equivalently: keeps exactly those with `calculateIoU b c ≤ thr`) and
recurses on the rest; a used candidate is skipped by both loops, which is
exactly removal from the remainder.  The outer loop consumes at least one
candidate per iteration, so fuel initialized to the list length (as in `nms`
below) makes the recursion structural; `nmsGo_fuel` shows any sufficient fuel
gives the same result. -/
def nmsGo (thr : ℚ) : ℕ → List BubbleDetection → List BubbleDetection
  | _, [] => []
  | 0, _ :: _ => []
  | fuel + 1, b :: rest =>
      b :: nmsGo thr fuel (rest.filter fun c => decide (calculateIoU b c ≤ thr))

/-- `nms(boxes, iouThreshold)`: sort a copy descending by confidence
(`[...boxes].sort((a, b) => b.confidence - a.confidence)` — a stable sort,
realized here by the stable `insertionSort`), then greedily suppress. -/
def nms (boxes : List BubbleDetection) (iouThreshold : ℚ) : List BubbleDetection :=
  nmsGo iouThreshold boxes.length
    (boxes.insertionSort fun a b => b.confidence ≤ a.confidence)

/-! ## Letterbox geometry (computed inline at the top of `parseOutput`) -/

/-- `scale = Math.min(INPUT_SIZE / originalWidth, INPUT_SIZE / originalHeight)`. -/
def letterboxScale (originalWidth originalHeight : ℚ) : ℚ :=
  min (INPUT_SIZE / originalWidth) (INPUT_SIZE / originalHeight)

/-- `offsetX = (INPUT_SIZE - scaledWidth) / 2` with
`scaledWidth = originalWidth * scale`. -/
def letterboxOffsetX (originalWidth originalHeight : ℚ) : ℚ :=
  (INPUT_SIZE - originalWidth * letterboxScale originalWidth originalHeight) / 2

/-- `offsetY = (INPUT_SIZE - scaledHeight) / 2` with
`scaledHeight = originalHeight * scale`. -/
def letterboxOffsetY (originalWidth originalHeight : ℚ) : ℚ :=
  (INPUT_SIZE - originalHeight * letterboxScale originalWidth originalHeight) / 2

/-- The model-space-to-original mapping applied per x-coordinate in
`parseOutput`: `(p - offsetX) / scale`. -/
def toOriginalX (originalWidth originalHeight p : ℚ) : ℚ :=
  (p - letterboxOffsetX originalWidth originalHeight) /
    letterboxScale originalWidth originalHeight

/-- The model-space-to-original mapping applied per y-coordinate in
`parseOutput`: `(p - offsetY) / scale`. -/
def toOriginalY (originalWidth originalHeight p : ℚ) : ℚ :=
  (p - letterboxOffsetY originalWidth originalHeight) /
    letterboxScale originalWidth originalHeight

/-- Modelled from the spec: `toModelSpace` on x, the inverse of the mapping
above, `offset + p * scale`.  Only the forward direction appears literally in
`parseOutput`; the spec defines the inverse as composing `offset + p*scale`. -/
def toModelSpaceX (originalWidth originalHeight p : ℚ) : ℚ :=
  letterboxOffsetX originalWidth originalHeight +
    p * letterboxScale originalWidth originalHeight

/-- Modelled from the spec: `toModelSpace` on y, the inverse mapping
`offsetY + p * scale`. -/
def toModelSpaceY (originalWidth originalHeight p : ℚ) : ℚ :=
  letterboxOffsetY originalWidth originalHeight +
    p * letterboxScale originalWidth originalHeight

/-! ## Mask reconstruction and cropping (inside `parseOutput`) -/

/-- The ubiquitous row-major double loop
`for (y = 0; y < h; y++) for (x = 0; x < w; x++) out[y*w + x] = f(y, x)`,
materialized as the list of produced values (index `y*w + x`). -/
def grid2D {α : Type} (h w : ℕ) (f : ℕ → ℕ → α) : List α :=
  (List.range h).flatMap fun y => (List.range w).map fun x => f y x

/-- Channel-major tensor read `data[feature * numBoxes + i]`. -/
def featureAt (data : List ℚ) (numBoxes feature i : ℕ) : ℚ :=
  data.getD (feature * numBoxes + i) 0

/-- The inner 32-coefficient dot product at one prototype-grid cell:
`val = Σ_c maskCoeffs[c] * protoData[c * maskH * maskW + y * maskW + x]`. -/
def maskDotAt (maskCoeffs protoData : List ℚ) (maskH maskW y x : ℕ) : ℚ :=
  (List.range 32).foldl
    (fun val c =>
      val + maskCoeffs.getD c 0 * protoData.getD (c * (maskH * maskW) + y * maskW + x) 0)
    0

/-- The per-detection mask reconstruction of `parseOutput`: the source loops
`y` over the FULL `maskH` and `x` over the FULL `maskW`, computing the
32-coefficient dot product and sigmoid at every cell of the prototype grid
(`mask[y * maskW + x] = sigmoid(val)`).  The length of this list is the
number of dot-product-and-sigmoid evaluations performed. -/
def reconstructFullMask (o : FloatOracles) (maskCoeffs protoData : List ℚ)
    (maskH maskW : ℕ) : List ℚ :=
  grid2D maskH maskW fun y x => o.sigmoid (maskDotAt maskCoeffs protoData maskH maskW y x)

/-- Clamped source coordinate of the crop copy loop:
`src = Math.min(maskDim - 1, Math.max(0, m1 + t))`. -/
def cropSrc (maskDim : ℕ) (m1 : ℤ) (t : ℕ) : ℤ :=
  min ((maskDim : ℤ) - 1) (max 0 (m1 + (t : ℤ)))

/-- The crop copy loop of `parseOutput`:
`croppedMask[y*cropW + x] = mask[srcY * maskW + srcX]` with clamped `srcX`,
`srcY` — reading from the already fully reconstructed mask. -/
def croppedMaskOf (fullMask : List ℚ) (maskH maskW : ℕ) (mx1 my1 : ℤ)
    (cropW cropH : ℕ) : List ℚ :=
  grid2D cropH cropW fun y x =>
    fullMask.getD ((cropSrc maskH my1 y) * (maskW : ℤ) + cropSrc maskW mx1 x).toNat 0

/-! ## Polygon extraction (`maskToSvgPath`) -/

/-- The boundary-point collection loop of `maskToSvgPath`: sample every 2nd
pixel (`step = 2`); a sampled pixel is a boundary point when its value exceeds
the threshold and some 4-neighbor (out-of-grid neighbors read as `0`) does
not; its coordinates are emitted as percentages of the mask frame. -/
def boundaryPoints (mask : List ℚ) (maskWidth maskHeight : ℕ) (threshold : ℚ) :
    List (ℚ × ℚ) :=
  (List.range' 0 ((maskHeight + 1) / 2) 2).flatMap fun y =>
    (List.range' 0 ((maskWidth + 1) / 2) 2).filterMap fun x =>
      let idx := y * maskWidth + x
      let val := mask.getD idx 0
      if val > threshold then
        let left := if 0 < x then mask.getD (idx - 1) 0 else 0
        let right := if x < maskWidth - 1 then mask.getD (idx + 1) 0 else 0
        let top := if 0 < y then mask.getD (idx - maskWidth) 0 else 0
        let bottom := if y < maskHeight - 1 then mask.getD (idx + maskWidth) 0 else 0
        if left ≤ threshold ∨ right ≤ threshold ∨ top ≤ threshold ∨ bottom ≤ threshold then
          some ((x : ℚ) / (maskWidth : ℚ) * 100, (y : ℚ) / (maskHeight : ℚ) * 100)
        else none
      else none

/-- Decimal rendering of a coordinate, standing for JavaScript
`toFixed(1)` (round to one decimal place). -/
def toFixed1 (q : ℚ) : String :=
  let n : ℤ := round (q * 10)
  (if n < 0 then "-" else "") ++ toString (n.natAbs / 10) ++ "." ++ toString (n.natAbs % 10)

/-- `maskToSvgPath(mask, maskWidth, maskHeight, threshold)`: collect boundary
points; if fewer than 3 are found return the EMPTY STRING (`return ''`);
otherwise sort the points by angle around their centroid (via the `atan2`
comparator oracle) and render `polygon(x% y%, ...)`. -/
def maskToSvgPath (o : FloatOracles) (mask : List ℚ) (maskWidth maskHeight : ℕ)
    (threshold : ℚ) : String :=
  let points := boundaryPoints mask maskWidth maskHeight threshold
  if points.length < 3 then ""
  else
    let cx := (points.foldl (fun s p => s + p.1) 0) / (points.length : ℚ)
    let cy := (points.foldl (fun s p => s + p.2) 0) / (points.length : ℚ)
    let sorted := points.mergeSort fun a b => o.angleLe (cx, cy) a b
    "polygon(" ++
      String.intercalate ", "
        (sorted.map fun p => toFixed1 p.1 ++ "% " ++ toFixed1 p.2 ++ "%") ++ ")"

/-! ## The output decoder (`parseOutput`) -/

/-- The body of the `for (let i = 0; i < numBoxes; i++)` loop of
`parseOutput` at index `i`: read `cx, cy, w, h, confidence` channel-major,
skip (`none`) when `confidence < confidenceThreshold`, convert center form to
corner form in letterbox space, map to original coordinates, clamp to image
bounds, and (when prototypes are present) reconstruct, crop and trace the
mask.  The source wraps the mask work in `try/catch`, but no statement inside
can throw (out-of-range typed-array reads yield `undefined`, not an
exception), so the model has no failure branch. -/
def decodeBoxAt (o : FloatOracles) (output : OrtTensor) (maskProtos : Option OrtTensor)
    (originalWidth originalHeight confidenceThreshold : ℚ) (i : ℕ) :
    Option BubbleDetection :=
  let numBoxes := output.dims.getD 2 0
  let xCenter := featureAt output.data numBoxes 0 i
  let yCenter := featureAt output.data numBoxes 1 i
  let width := featureAt output.data numBoxes 2 i
  let height := featureAt output.data numBoxes 3 i
  let confidence := featureAt output.data numBoxes 4 i
  if confidence < confidenceThreshold then none
  else
    let x1Letterbox := xCenter - width / 2
    let y1Letterbox := yCenter - height / 2
    let x2Letterbox := xCenter + width / 2
    let y2Letterbox := yCenter + height / 2
    let x1 := toOriginalX originalWidth originalHeight x1Letterbox
    let y1 := toOriginalY originalWidth originalHeight y1Letterbox
    let x2 := toOriginalX originalWidth originalHeight x2Letterbox
    let y2 := toOriginalY originalWidth originalHeight y2Letterbox
    let clampedX1 := max 0 (min originalWidth x1)
    let clampedY1 := max 0 (min originalHeight y1)
    let clampedX2 := max 0 (min originalWidth x2)
    let clampedY2 := max 0 (min originalHeight y2)
    let maskPath : Option String :=
      match maskProtos with
      | none => none
      | some protos =>
          let maskH := protos.dims.getD 2 160
          let maskW := protos.dims.getD 3 160
          let maskCoeffs := (List.range 32).map fun c =>
            featureAt output.data numBoxes (5 + c) i
          let fullMask := reconstructFullMask o maskCoeffs protos.data maskH maskW
          let maskScale := (maskW : ℚ) / INPUT_SIZE
          let mx1 := ⌊x1Letterbox * maskScale⌋
          let my1 := ⌊y1Letterbox * maskScale⌋
          let mx2 := ⌈x2Letterbox * maskScale⌉
          let my2 := ⌈y2Letterbox * maskScale⌉
          let cropW := max 1 (mx2 - mx1)
          let cropH := max 1 (my2 - my1)
          let croppedMask := croppedMaskOf fullMask maskH maskW mx1 my1
            cropW.toNat cropH.toNat
          some (maskToSvgPath o croppedMask cropW.toNat cropH.toNat (1 / 2))
    some
      { x := (clampedX1 + clampedX2) / 2 / originalWidth
        y := (clampedY1 + clampedY2) / 2 / originalHeight
        width := (clampedX2 - clampedX1) / originalWidth
        height := (clampedY2 - clampedY1) / originalHeight
        confidence := confidence
        bbox := ⟨clampedX1, clampedY1, clampedX2, clampedY2⟩
        maskPath := maskPath }

/-- `parseOutput`: destructure `numBoxes = output.dims[2]` (with no shape or
rank validation; a missing third entry makes the loop bound `undefined` in
JavaScript and the loop run zero times, modelled by the default `0`), then
run the decode loop, emitting one detection per index that passes the
confidence gate. -/
def parseOutput (o : FloatOracles) (output : OrtTensor) (maskProtos : Option OrtTensor)
    (originalWidth originalHeight confidenceThreshold : ℚ) : List BubbleDetection :=
  (List.range (output.dims.getD 2 0)).filterMap
    (decodeBoxAt o output maskProtos originalWidth originalHeight confidenceThreshold)

/-- The result record of `detectBubbles` (the wall-clock `inferenceTime`
field is not modelled). -/
structure DetectionResult where
  bubbles : List BubbleDetection
  imageWidth : ℚ
  imageHeight : ℚ
deriving DecidableEq, Repr, Inhabited

/-- The pure decoding core of `detectBubbles`: given the inference outputs,
`parseOutput` then `nms`, packaged with the image dimensions. -/
def detectBubblesCore (o : FloatOracles) (output0 : OrtTensor)
    (output1 : Option OrtTensor) (originalWidth originalHeight : ℚ)
    (confidenceThreshold nmsThreshold : ℚ) : DetectionResult :=
  { bubbles :=
      nms (parseOutput o output0 output1 originalWidth originalHeight confidenceThreshold)
        nmsThreshold
    imageWidth := originalWidth
    imageHeight := originalHeight }

/-! ## Helper lemmas -/

theorem grid2D_length {α : Type} (h w : ℕ) (f : ℕ → ℕ → α) :
    (grid2D h w f).length = h * w := by
  simp [grid2D, Function.comp_def, List.map_const']

theorem iouIntersection_comm (a b : BBox) : iouIntersection a b = iouIntersection b a := by
  unfold iouIntersection
  rw [max_comm a.x1 b.x1, max_comm a.y1 b.y1, min_comm a.x2 b.x2, min_comm a.y2 b.y2]

theorem iouUnion_comm (a b : BBox) : iouUnion a b = iouUnion b a := by
  unfold iouUnion
  rw [iouIntersection_comm, add_comm (bboxArea a)]

theorem calculateIoU_symm (a b : BubbleDetection) :
    calculateIoU a b = calculateIoU b a := by
  unfold calculateIoU
  rw [iouIntersection_comm, iouUnion_comm]

theorem nmsGo_nil (thr : ℚ) (fuel : ℕ) : nmsGo thr fuel [] = [] := by
  cases fuel <;> rfl

theorem nmsGo_fuel (thr : ℚ) :
    ∀ (f₁ f₂ : ℕ) (l : List BubbleDetection),
      l.length ≤ f₁ → l.length ≤ f₂ → nmsGo thr f₁ l = nmsGo thr f₂ l := by
  intro f₁
  induction f₁ with
  | zero =>
    intro f₂ l h₁ _
    have hl : l = [] := List.length_eq_zero.mp (Nat.le_zero.mp h₁)
    subst hl
    rw [nmsGo_nil, nmsGo_nil]
  | succ f ih =>
    intro f₂ l h₁ h₂
    cases l with
    | nil => rw [nmsGo_nil, nmsGo_nil]
    | cons b rest =>
      cases f₂ with
      | zero => simp at h₂
      | succ g =>
        simp only [nmsGo, List.cons.injEq, true_and]
        have hr₁ : rest.length ≤ f := by
          simp only [List.length_cons] at h₁
          omega
        have hr₂ : rest.length ≤ g := by
          simp only [List.length_cons] at h₂
          omega
        exact ih g _ (le_trans (List.length_filter_le _ _) hr₁)
          (le_trans (List.length_filter_le _ _) hr₂)

theorem nmsGo_sublist (thr : ℚ) :
    ∀ (fuel : ℕ) (l : List BubbleDetection), (nmsGo thr fuel l).Sublist l := by
  intro fuel
  induction fuel with
  | zero =>
    intro l
    match l with
    | [] => exact List.Sublist.refl []
    | _ :: _ => exact List.nil_sublist _
  | succ f ih =>
    intro l
    match l with
    | [] => exact List.Sublist.refl []
    | b :: rest =>
      exact (List.Sublist.cons₂ b ((ih _).trans (List.filter_sublist rest)))

theorem nmsGo_pairwise (thr : ℚ) :
    ∀ (fuel : ℕ) (l : List BubbleDetection),
      (nmsGo thr fuel l).Pairwise fun a b => calculateIoU a b ≤ thr := by
  intro fuel
  induction fuel with
  | zero =>
    intro l
    match l with
    | [] => exact List.Pairwise.nil
    | _ :: _ => exact List.Pairwise.nil
  | succ f ih =>
    intro l
    match l with
    | [] => exact List.Pairwise.nil
    | b :: rest =>
      refine List.Pairwise.cons ?_ (ih _)
      intro c hc
      have hmem := ((nmsGo_sublist thr f _).subset hc)
      have := (List.mem_filter.mp hmem).2
      exact of_decide_eq_true this

theorem mem_nms_subset (boxes : List BubbleDetection) (thr : ℚ)
    (a : BubbleDetection) (h : a ∈ nms boxes thr) : a ∈ boxes := by
  have h₁ := (nmsGo_sublist thr boxes.length _).subset h
  exact (List.perm_insertionSort (fun a b => b.confidence ≤ a.confidence) boxes).subset h₁

/-! ## C1: pairwise IoU of the NMS survivors is at most the threshold -/

/-- C1.  For every input list of candidate detections and every
`nmsThreshold`, any two distinct detections in the list returned by greedy
NMS (`nms`) have pairwise IoU, as computed by `calculateIoU` on their
pixel-space bounding boxes, at most `nmsThreshold`.  (In the rational model
`calculateIoU` of two zero-union boxes is `0`; the IEEE `0/0 = NaN` case for
a doubly degenerate pair is settled separately under C4.) -/
theorem nms_pairwise_iou_le_threshold (boxes : List BubbleDetection) (thr : ℚ)
    (a b : BubbleDetection) (ha : a ∈ nms boxes thr) (hb : b ∈ nms boxes thr)
    (hab : a ≠ b) : calculateIoU a b ≤ thr := by
  have hp : (nms boxes thr).Pairwise fun a b => calculateIoU a b ≤ thr :=
    nmsGo_pairwise thr boxes.length _
  have hsym : Symmetric fun a b : BubbleDetection => calculateIoU a b ≤ thr := by
    intro x y hxy
    rw [calculateIoU_symm]
    exact hxy
  exact hp.forall hsym ha hb hab

/-- Concrete detections for the C1 witness: two disjoint boxes that both
survive NMS at threshold `1/2`. -/
def witBoxA : BubbleDetection :=
  { x := 0, y := 0, width := 0, height := 0, confidence := 9 / 10
    bbox := ⟨0, 0, 10, 10⟩, maskPath := none }

def witBoxB : BubbleDetection :=
  { x := 0, y := 0, width := 0, height := 0, confidence := 8 / 10
    bbox := ⟨20, 20, 30, 30⟩, maskPath := none }

/-- Witness for C1 at a concrete input: both disjoint boxes survive
`nms [witBoxA, witBoxB] (1/2)` and their IoU is at most `1/2`. -/
theorem nms_pairwise_iou_le_threshold_witness :
    calculateIoU witBoxA witBoxB ≤ 1 / 2 := by
  have hnms : nms [witBoxA, witBoxB] (1 / 2) = [witBoxA, witBoxB] := by
    norm_num [nms, nmsGo, List.insertionSort, List.orderedInsert, calculateIoU,
      iouIntersection, iouUnion, bboxArea, witBoxA, witBoxB, min_def, max_def,
      List.filter]
  exact nms_pairwise_iou_le_threshold [witBoxA, witBoxB] (1 / 2) witBoxA witBoxB
    (by rw [hnms]; simp) (by rw [hnms]; simp) (by norm_num [witBoxA, witBoxB])

/-! ## C3: letterbox round-trip identity -/

theorem letterboxScale_pos (W H : ℚ) (hW : 0 < W) (hH : 0 < H) :
    0 < letterboxScale W H :=
  lt_min (div_pos (by norm_num [INPUT_SIZE]) hW) (div_pos (by norm_num [INPUT_SIZE]) hH)

/-- C3.  For every image with positive `originalWidth`, `originalHeight` (and
the positive `INPUT_SIZE = 640`), composing the model-space-to-original
mapping `(p - offset) / scale` with its inverse `offset + p * scale` returns
the original point for every point, on both axes and in both orders — exact
over the rationals. -/
theorem letterbox_roundtrip (W H p : ℚ) (hW : 0 < W) (hH : 0 < H) :
    toOriginalX W H (toModelSpaceX W H p) = p ∧
    toModelSpaceX W H (toOriginalX W H p) = p ∧
    toOriginalY W H (toModelSpaceY W H p) = p ∧
    toModelSpaceY W H (toOriginalY W H p) = p := by
  have hs : letterboxScale W H ≠ 0 := ne_of_gt (letterboxScale_pos W H hW hH)
  refine ⟨?_, ?_, ?_, ?_⟩ <;>
    · simp only [toOriginalX, toModelSpaceX, toOriginalY, toModelSpaceY]
      field_simp

/-- Witness for C3 at the concrete image 1000×2000 and point 37. -/
theorem letterbox_roundtrip_witness :
    (0 : ℚ) < 1000 ∧ (0 : ℚ) < 2000 ∧
    toOriginalX 1000 2000 (toModelSpaceX 1000 2000 37) = 37 :=
  ⟨by norm_num, by norm_num,
    (letterbox_roundtrip 1000 2000 37 (by norm_num) (by norm_num)).1⟩

/-! ## C9: golden letterbox regression, 1000×2000 image -/

/-- C9.  For `originalWidth = 1000`, `originalHeight = 2000`,
`inputSize = 640`: `scale = 0.32 = 8/25`, `offsetX = 160`, `offsetY = 0`; and
a raw candidate at model-space center `(320, 100)` with width 80 and height
40 decodes (through `parseOutput`) to original-space `x1 = 375` exactly. -/
theorem golden_letterbox_1000x2000 :
    letterboxScale 1000 2000 = 8 / 25 ∧
    letterboxOffsetX 1000 2000 = 160 ∧
    letterboxOffsetY 1000 2000 = 0 ∧
    ((parseOutput trivOracles ⟨[320, 100, 80, 40, 1], [1, 37, 1]⟩ none
        1000 2000 (1 / 4)).map fun d => d.bbox.x1) = [375] := by
  refine ⟨?_, ?_, ?_, ?_⟩ <;>
    norm_num [letterboxScale, letterboxOffsetX, letterboxOffsetY, INPUT_SIZE,
      min_def, max_def, parseOutput, decodeBoxAt, featureAt, toOriginalX,
      toOriginalY, List.range_succ, List.getD, List.filterMap_cons,
      List.filterMap_nil]

/-! ## C4: the IoU union is not guarded against zero -/

/-- If one box is degenerate (zero area), the intersection area computed by
`calculateIoU` is zero. -/
theorem iouIntersection_eq_zero_left (a b : BBox) (ha : bboxArea a = 0) :
    iouIntersection a b = 0 := by
  unfold bboxArea at ha
  unfold iouIntersection
  rcases mul_eq_zero.mp ha with h | h
  · have hx : min a.x2 b.x2 - max a.x1 b.x1 ≤ 0 := by
      have h1 : min a.x2 b.x2 ≤ a.x2 := min_le_left _ _
      have h2 : a.x1 ≤ max a.x1 b.x1 := le_max_left _ _
      linarith
    rw [max_eq_left hx, zero_mul]
  · have hy : min a.y2 b.y2 - max a.y1 b.y1 ≤ 0 := by
      have h1 : min a.y2 b.y2 ≤ a.y2 := min_le_left _ _
      have h2 : a.y1 ≤ max a.y1 b.y1 := le_max_left _ _
      linarith
    rw [max_eq_left hy, mul_zero]

/-- C4 (amended).  `calculateIoU` has NO guard on the union: when both boxes
are degenerate (zero area) the intersection and the union are both zero, so
the source computes `0 / 0` (IEEE: `NaN`).  In the rational model the
division yields `0`, so the NaN never suppresses anything: `NaN > threshold`
is false in the source, and the NMS sort (by confidence) never sees an IoU. -/
theorem calculateIoU_degenerate_union_zero (a b : BubbleDetection)
    (ha : bboxArea a.bbox = 0) (hb : bboxArea b.bbox = 0) :
    iouIntersection a.bbox b.bbox = 0 ∧ iouUnion a.bbox b.bbox = 0 ∧
    calculateIoU a b = 0 := by
  have hi := iouIntersection_eq_zero_left a.bbox b.bbox ha
  refine ⟨hi, ?_, ?_⟩
  · unfold iouUnion
    rw [ha, hb, hi]
    ring
  · unfold calculateIoU
    rw [hi, zero_div]

/-- A zero-area (point) box detection. -/
def degBoxA : BubbleDetection :=
  { x := 0, y := 0, width := 0, height := 0, confidence := 7 / 10
    bbox := ⟨5, 5, 5, 5⟩, maskPath := none }

/-- A zero-width, positive-height (line) box detection: also zero area. -/
def degBoxB : BubbleDetection :=
  { x := 0, y := 0, width := 0, height := 0, confidence := 6 / 10
    bbox := ⟨7, 8, 7, 9⟩, maskPath := none }

/-- C4 counterexample.  At two concrete degenerate boxes, the union that
`calculateIoU` divides by is `0`: the source performs the division
`intersection / 0` (0/0, IEEE NaN) — the claimed guard does not exist. -/
theorem calculateIoU_union_zero_counterexample :
    bboxArea degBoxA.bbox = 0 ∧ bboxArea degBoxB.bbox = 0 ∧
    iouUnion degBoxA.bbox degBoxB.bbox = 0 := by
  refine ⟨?_, ?_, ?_⟩ <;>
    norm_num [bboxArea, iouUnion, iouIntersection, degBoxA, degBoxB,
      min_def, max_def]

/-- Witness for the amended C4 at the concrete degenerate boxes. -/
theorem calculateIoU_degenerate_union_zero_witness :
    iouUnion degBoxA.bbox degBoxB.bbox = 0 ∧ calculateIoU degBoxA degBoxB = 0 := by
  have h := calculateIoU_degenerate_union_zero degBoxA degBoxB
    (by norm_num [bboxArea, degBoxA]) (by norm_num [bboxArea, degBoxB])
  exact ⟨h.2.1, h.2.2⟩

/-! ## C2: the mask dot product runs over the FULL prototype grid -/

/-- C2 (amended).  The mask reconstructor of `parseOutput` evaluates the
32-coefficient dot product and sigmoid at EVERY cell of the full
`maskH × maskW` prototype grid — one evaluation per produced list entry —
for each detection; the crop (`croppedMaskOf`, see `decodeBoxAt`) only copies
from this fully reconstructed mask afterwards.  The spec's claimed
crop-before-reconstruct does not hold: reconstruction cost is
`maskH * maskW * 32` multiply-accumulates per detection regardless of the
crop size. -/
theorem reconstructFullMask_full_grid (o : FloatOracles)
    (maskCoeffs protoData : List ℚ) (maskH maskW : ℕ) :
    (reconstructFullMask o maskCoeffs protoData maskH maskW).length =
      maskH * maskW := by
  unfold reconstructFullMask
  exact grid2D_length _ _ _

/-- C2 counterexample.  For the concrete letterbox box `[280, 360]` (a 20×20
crop in the 160×160 prototype grid: `cropW = cropH = max 1 (⌈360/4⌉ - ⌊280/4⌋)
= 20`, 400 cropped cells), the reconstruction nevertheless evaluates
sigmoid-of-dot-product at all `160 * 160 = 25600` grid cells: the dot product
is NOT restricted to the cropped region. -/
theorem reconstruct_not_cropped_counterexample :
    (max 1 (⌈(360 : ℚ) * ((160 : ℚ) / INPUT_SIZE)⌉ -
        ⌊(280 : ℚ) * ((160 : ℚ) / INPUT_SIZE)⌋)).toNat *
      (max 1 (⌈(360 : ℚ) * ((160 : ℚ) / INPUT_SIZE)⌉ -
        ⌊(280 : ℚ) * ((160 : ℚ) / INPUT_SIZE)⌋)).toNat = 400 ∧
    (reconstructFullMask trivOracles (List.replicate 32 0) [] 160 160).length =
      25600 ∧
    ¬ (25600 ≤ 400) := by
  refine ⟨?_, ?_, by norm_num⟩
  · have h20 : ⌈(360 : ℚ) * ((160 : ℚ) / INPUT_SIZE)⌉ -
        ⌊(280 : ℚ) * ((160 : ℚ) / INPUT_SIZE)⌋ = 20 := by
      norm_num [INPUT_SIZE]
    rw [h20]
    decide
  · unfold reconstructFullMask
    rw [grid2D_length]

/-! ## C6: absent prototype tensor degrades gracefully -/

/-- With `maskProtos` absent, every detection emitted by `parseOutput` has an
absent `maskPath` (the `if (protoData && protoDims)` block is skipped and the
local stays `undefined`). -/
theorem parseOutput_no_protos_maskPath_none (o : FloatOracles) (output : OrtTensor)
    (W H cThr : ℚ) (d : BubbleDetection)
    (hd : d ∈ parseOutput o output none W H cThr) : d.maskPath = none := by
  obtain ⟨i, _, hdec⟩ := List.mem_filterMap.mp hd
  simp only [decodeBoxAt] at hdec
  split at hdec
  · exact absurd hdec (by simp)
  · injection hdec with h
    subst h
    rfl

/-- C6.  For every well-formed raw detection tensor, when the prototype-mask
tensor is absent the pipeline raises no error (the model is a total function)
and returns a result in which every Detection's polygon path is absent. -/
theorem detect_no_protos_all_maskPath_none (o : FloatOracles) (output : OrtTensor)
    (W H cThr nThr : ℚ) (d : BubbleDetection)
    (hd : d ∈ (detectBubblesCore o output none W H cThr nThr).bubbles) :
    d.maskPath = none := by
  simp only [detectBubblesCore] at hd
  exact parseOutput_no_protos_maskPath_none o output W H cThr d
    (mem_nms_subset _ _ _ hd)

/-- Witness for C6: a concrete single-candidate run without prototypes whose
returned detection has `maskPath = none`. -/
theorem detect_no_protos_witness :
    ((detectBubblesCore trivOracles ⟨[320, 320, 80, 40, 1], [1, 37, 1]⟩ none
        640 640 (1 / 4) (1 / 2)).bubbles.getD 0 default).maskPath = none := by
  have hb : (detectBubblesCore trivOracles ⟨[320, 320, 80, 40, 1], [1, 37, 1]⟩ none
      640 640 (1 / 4) (1 / 2)).bubbles =
      [⟨1 / 2, 1 / 2, 1 / 8, 1 / 16, 1, ⟨280, 300, 360, 340⟩, none⟩] := by
    norm_num [detectBubblesCore, nms, nmsGo, List.insertionSort, List.orderedInsert,
      parseOutput, decodeBoxAt, featureAt, toOriginalX, toOriginalY, letterboxScale,
      letterboxOffsetX, letterboxOffsetY, INPUT_SIZE, min_def, max_def,
      List.range_succ, List.getD, List.filterMap_cons, List.filterMap_nil]
  refine detect_no_protos_all_maskPath_none trivOracles
    ⟨[320, 320, 80, 40, 1], [1, 37, 1]⟩ 640 640 (1 / 4) (1 / 2) _ ?_
  rw [hb]
  simp

/-! ## C8: no shape validation, no fail-fast -/

/-- C8 (amended).  `parseOutput` performs NO shape or rank validation and
never raises: for EVERY tensor, malformed or not, it returns a normal list of
at most `dims[2]` detections (with `dims[2]` read as `0` when absent,
matching the JavaScript `undefined` loop bound). -/
theorem parseOutput_no_shape_validation (o : FloatOracles) (output : OrtTensor)
    (maskProtos : Option OrtTensor) (W H cThr : ℚ) :
    (parseOutput o output maskProtos W H cThr).length ≤ output.dims.getD 2 0 := by
  unfold parseOutput
  exact le_trans (List.length_filterMap_le _ _) (le_of_eq (List.length_range _))

/-- A tensor whose dims `[1, 6, 2]` do not match the documented
`[1, 4+1+32, numBoxes]` layout. -/
def malformedTensor : OrtTensor :=
  ⟨[100, 200, 100, 200, 10, 10, 10, 10, 1, 1, 0, 0], [1, 6, 2]⟩

/-- C8 counterexample.  The malformed tensor is decoded without any error:
`parseOutput` silently returns a normal 2-element detection list instead of
failing fast. -/
theorem parseOutput_malformed_no_error_counterexample :
    malformedTensor.dims ≠ [1, 4 + 1 + 32, 2] ∧
    (parseOutput trivOracles malformedTensor none 640 640 (1 / 4)).length = 2 := by
  constructor
  · norm_num [malformedTensor]
  · norm_num [parseOutput, decodeBoxAt, featureAt, malformedTensor, toOriginalX,
      toOriginalY, letterboxScale, letterboxOffsetX, letterboxOffsetY, INPUT_SIZE,
      min_def, max_def, List.range_succ, List.getD, List.filterMap_cons,
      List.filterMap_nil]

/-! ## C10: crop loop bounds safety -/

/-- C10.  The crop dimensions `Math.max(1, m2 - m1)` are always at least 1,
every source coordinate of the crop copy loop is clamped into
`[0, maskDim - 1]`, the flat read index stays below `maskH * maskW`, and the
cropped mask is never empty — for every box, including degenerate ones or
boxes entirely outside the prototype grid. -/
theorem crop_reads_in_bounds (maskH maskW : ℕ) (mx1 my1 mx2 my2 : ℤ)
    (x y : ℕ) (fullMask : List ℚ) (hH : 1 ≤ maskH) (hW : 1 ≤ maskW) :
    1 ≤ max 1 (mx2 - mx1) ∧ 1 ≤ max 1 (my2 - my1) ∧
    0 ≤ cropSrc maskW mx1 x ∧ cropSrc maskW mx1 x ≤ (maskW : ℤ) - 1 ∧
    0 ≤ cropSrc maskH my1 y ∧ cropSrc maskH my1 y ≤ (maskH : ℤ) - 1 ∧
    (cropSrc maskH my1 y * (maskW : ℤ) + cropSrc maskW mx1 x).toNat <
      maskH * maskW ∧
    1 ≤ (croppedMaskOf fullMask maskH maskW mx1 my1
        (max 1 (mx2 - mx1)).toNat (max 1 (my2 - my1)).toNat).length := by
  have hW' : (1 : ℤ) ≤ (maskW : ℤ) := by exact_mod_cast hW
  have hH' : (1 : ℤ) ≤ (maskH : ℤ) := by exact_mod_cast hH
  have hx0 : 0 ≤ cropSrc maskW mx1 x := le_min (by linarith) (le_max_left _ _)
  have hx1 : cropSrc maskW mx1 x ≤ (maskW : ℤ) - 1 := min_le_left _ _
  have hy0 : 0 ≤ cropSrc maskH my1 y := le_min (by linarith) (le_max_left _ _)
  have hy1 : cropSrc maskH my1 y ≤ (maskH : ℤ) - 1 := min_le_left _ _
  refine ⟨le_max_left _ _, le_max_left _ _, hx0, hx1, hy0, hy1, ?_, ?_⟩
  · have h1 : cropSrc maskH my1 y * (maskW : ℤ) ≤ ((maskH : ℤ) - 1) * (maskW : ℤ) :=
      mul_le_mul_of_nonneg_right hy1 (by linarith)
    have h2 : ((maskH : ℤ) - 1) * (maskW : ℤ) = (maskH : ℤ) * (maskW : ℤ) - (maskW : ℤ) := by
      ring
    have hz2 : cropSrc maskH my1 y * (maskW : ℤ) + cropSrc maskW mx1 x <
        ((maskH * maskW : ℕ) : ℤ) := by
      push_cast
      linarith
    have hn : 0 < maskH * maskW := Nat.mul_pos hH hW
    omega
  · unfold croppedMaskOf
    rw [grid2D_length]
    have h1 : (1 : ℤ) ≤ max 1 (mx2 - mx1) := le_max_left _ _
    have h2 : (1 : ℤ) ≤ max 1 (my2 - my1) := le_max_left _ _
    have h1' : 1 ≤ (max 1 (mx2 - mx1)).toNat := by omega
    have h2' : 1 ≤ (max 1 (my2 - my1)).toNat := by omega
    exact Nat.mul_pos h2' h1'

/-- Witness for C10 at concrete crop parameters (160×160 grid, box crop
`[70, 90]×[70, 90]`, copy offsets `(5, 5)`). -/
theorem crop_reads_in_bounds_witness :
    1 ≤ max 1 ((90 : ℤ) - 70) ∧ 1 ≤ max 1 ((90 : ℤ) - 70) ∧
    0 ≤ cropSrc 160 70 5 ∧ cropSrc 160 70 5 ≤ (160 : ℤ) - 1 ∧
    0 ≤ cropSrc 160 70 5 ∧ cropSrc 160 70 5 ≤ (160 : ℤ) - 1 ∧
    (cropSrc 160 70 5 * (160 : ℤ) + cropSrc 160 70 5).toNat < 160 * 160 ∧
    1 ≤ (croppedMaskOf [] 160 160 70 70
        (max 1 ((90 : ℤ) - 70)).toNat (max 1 ((90 : ℤ) - 70)).toNat).length :=
  crop_reads_in_bounds 160 160 70 70 90 90 5 5 [] (by norm_num) (by norm_num)

/-! ## C5: polygon-extraction failure yields an empty string, not absence -/

/-- C5 (amended).  When fewer than 3 boundary points are found,
`maskToSvgPath` returns the EMPTY STRING; and with prototypes present,
`parseOutput` stores the traced path unconditionally, so every emitted
detection's `maskPath` field is PRESENT (`some`, possibly holding `""`), and
the detection is emitted with its bounding box regardless of polygon
success.  The failure is observable as the empty path, not as an absent
field. -/
theorem polygon_failure_empty_string :
    (∀ (o : FloatOracles) (mask : List ℚ) (mW mH : ℕ) (thr : ℚ),
        (boundaryPoints mask mW mH thr).length < 3 →
        maskToSvgPath o mask mW mH thr = "") ∧
    (∀ (o : FloatOracles) (output protos : OrtTensor) (W H cThr : ℚ)
        (d : BubbleDetection),
        d ∈ parseOutput o output (some protos) W H cThr →
        ∃ s, d.maskPath = some s) := by
  constructor
  · intro o mask mW mH thr h
    simp only [maskToSvgPath]
    rw [if_pos h]
  · intro o output protos W H cThr d hd
    obtain ⟨i, _, hdec⟩ := List.mem_filterMap.mp hd
    simp only [decodeBoxAt] at hdec
    split at hdec
    · exact absurd hdec (by simp)
    · injection hdec with h
      subst h
      exact ⟨_, rfl⟩

/-- The detection tensor for the concrete mask run: one candidate at
`(320, 320)`, size 80×80, confidence 1, all 32 mask coefficients zero. -/
def protoDetTensor : OrtTensor :=
  ⟨[320, 320, 80, 80, 1, 0, 0, 0, 0, 0, 0, 0, 0, 0, 0, 0, 0, 0, 0, 0, 0, 0, 0,
    0, 0, 0, 0, 0, 0, 0, 0, 0, 0, 0, 0, 0, 0], [1, 37, 1]⟩

/-- An all-zero 1×1 prototype tensor (32 prototypes): every reconstructed
mask value is `sigmoid(0) = 1/2`, which does NOT exceed the polygon threshold
`0.5`, so zero boundary points are found. -/
def protoMaskTensor : OrtTensor :=
  ⟨List.replicate 32 0, [1, 32, 1, 1]⟩

/-- With the constant oracle, every reconstructed mask value is `1/2`
(matching the true `sigmoid(0)` on all-zero prototypes), independent of the
coefficients and prototype data. -/
theorem reconstructFullMask_trivial (maskCoeffs protoData : List ℚ)
    (maskH maskW : ℕ) :
    reconstructFullMask trivOracles maskCoeffs protoData maskH maskW =
      grid2D maskH maskW fun _ _ => (1 : ℚ) / 2 := by
  simp [reconstructFullMask, trivOracles]

set_option maxRecDepth 4000 in
set_option maxHeartbeats 1000000 in
/-- C5 counterexample.  On the all-zero prototype run the cropped mask is the
all-`1/2` 2×2 grid, which yields 0 (< 3) boundary points — polygon extraction
fails — yet the emitted detection's `maskPath` is `some ""`: the field is
PRESENT holding the empty string, not absent as the claim states. -/
theorem polygon_absent_counterexample :
    (boundaryPoints [1 / 2] 1 1 (1 / 2)).length < 3 ∧
    ((parseOutput trivOracles protoDetTensor (some protoMaskTensor) 640 640
        (1 / 4)).map fun d => d.maskPath) = [some ""] := by
  have hc : ⌈(9 : ℚ) / 16⌉ = 1 := by norm_num [Int.ceil_eq_iff]
  constructor
  · norm_num [boundaryPoints, List.range', List.getD]
  · norm_num [parseOutput, decodeBoxAt, featureAt, protoDetTensor, protoMaskTensor,
      toOriginalX, toOriginalY, letterboxScale, letterboxOffsetX, letterboxOffsetY,
      INPUT_SIZE, min_def, max_def, List.range_succ, List.getD, List.filterMap_cons,
      List.filterMap_nil, reconstructFullMask_trivial, grid2D, croppedMaskOf,
      cropSrc, maskToSvgPath, boundaryPoints, List.range', hc,
      List.flatMap_cons, List.flatMap_nil]

set_option maxRecDepth 4000 in
set_option maxHeartbeats 1000000 in
/-- Witness for the amended C5: the empty-string branch at a concrete
all-zero 4×4 mask, and the presence of the `maskPath` field on the concrete
prototype run. -/
theorem polygon_failure_empty_string_witness :
    maskToSvgPath trivOracles (List.replicate 16 0) 4 4 (1 / 2) = "" ∧
    ∃ s, ((parseOutput trivOracles protoDetTensor (some protoMaskTensor) 640 640
        (1 / 4)).getD 0 default).maskPath = some s := by
  constructor
  · exact polygon_failure_empty_string.1 trivOracles (List.replicate 16 0) 4 4 (1 / 2)
      (by norm_num [boundaryPoints, List.range', List.getD, List.replicate])
  · apply polygon_failure_empty_string.2 trivOracles protoDetTensor protoMaskTensor
      640 640 (1 / 4)
    have hp : parseOutput trivOracles protoDetTensor (some protoMaskTensor) 640 640
        (1 / 4) =
        [⟨1 / 2, 1 / 2, 1 / 8, 1 / 8, 1, ⟨280, 280, 360, 360⟩, some ""⟩] := by
      have hc : ⌈(9 : ℚ) / 16⌉ = 1 := by norm_num [Int.ceil_eq_iff]
      norm_num [parseOutput, decodeBoxAt, featureAt, protoDetTensor, protoMaskTensor,
        toOriginalX, toOriginalY, letterboxScale, letterboxOffsetX, letterboxOffsetY,
        INPUT_SIZE, min_def, max_def, List.range_succ, List.getD, List.filterMap_cons,
        List.filterMap_nil, reconstructFullMask_trivial, grid2D, croppedMaskOf,
        cropSrc, maskToSvgPath, boundaryPoints, List.range', hc,
        List.flatMap_cons, List.flatMap_nil]
    rw [hp]
    simp

/-! ## C7: clamped bbox bounds; ordering fails for negative raw sizes -/

/-- C7 (amended).  Every detection in a returned result has its pixel
bounding box clamped into `[0, W] × [0, H]` componentwise; the ORDERING
`x1 ≤ x2` (resp. `y1 ≤ y2`) additionally holds whenever the raw box width
(resp. height) at that tensor index is nonnegative.  (For a negative raw
width the decoder still emits the detection but with `x1 > x2`; see the
counterexample.) -/
theorem bbox_clamped_in_bounds (o : FloatOracles) (output : OrtTensor)
    (maskProtos : Option OrtTensor) (W H cThr nThr : ℚ) (hW : 0 < W) (hH : 0 < H) :
    (∀ d ∈ (detectBubblesCore o output maskProtos W H cThr nThr).bubbles,
        0 ≤ d.bbox.x1 ∧ d.bbox.x1 ≤ W ∧ 0 ≤ d.bbox.x2 ∧ d.bbox.x2 ≤ W ∧
        0 ≤ d.bbox.y1 ∧ d.bbox.y1 ≤ H ∧ 0 ≤ d.bbox.y2 ∧ d.bbox.y2 ≤ H) ∧
    (∀ (i : ℕ) (d : BubbleDetection),
        0 ≤ featureAt output.data (output.dims.getD 2 0) 2 i →
        0 ≤ featureAt output.data (output.dims.getD 2 0) 3 i →
        decodeBoxAt o output maskProtos W H cThr i = some d →
        d.bbox.x1 ≤ d.bbox.x2 ∧ d.bbox.y1 ≤ d.bbox.y2) := by
  have hs : 0 < letterboxScale W H := letterboxScale_pos W H hW hH
  constructor
  · intro d hd
    simp only [detectBubblesCore] at hd
    have h1 : d ∈ parseOutput o output maskProtos W H cThr := mem_nms_subset _ _ _ hd
    obtain ⟨i, _, hdec⟩ := List.mem_filterMap.mp h1
    simp only [decodeBoxAt] at hdec
    split at hdec
    · exact absurd hdec (by simp)
    · injection hdec with h
      subst h
      exact ⟨le_max_left _ _, max_le hW.le (min_le_left _ _),
        le_max_left _ _, max_le hW.le (min_le_left _ _),
        le_max_left _ _, max_le hH.le (min_le_left _ _),
        le_max_left _ _, max_le hH.le (min_le_left _ _)⟩
  · intro i d hw hh hdec
    simp only [decodeBoxAt] at hdec
    split at hdec
    · exact absurd hdec (by simp)
    · injection hdec with h
      subst h
      have keyX : ∀ p q : ℚ, p ≤ q →
          max 0 (min W (toOriginalX W H p)) ≤ max 0 (min W (toOriginalX W H q)) := by
        intro p q hpq
        refine max_le_max le_rfl (min_le_min le_rfl ?_)
        simp only [toOriginalX]
        exact (div_le_div_iff_of_pos_right hs).mpr (by linarith)
      have keyY : ∀ p q : ℚ, p ≤ q →
          max 0 (min H (toOriginalY W H p)) ≤ max 0 (min H (toOriginalY W H q)) := by
        intro p q hpq
        refine max_le_max le_rfl (min_le_min le_rfl ?_)
        simp only [toOriginalY]
        exact (div_le_div_iff_of_pos_right hs).mpr (by linarith)
      exact ⟨keyX _ _ (by linarith), keyY _ _ (by linarith)⟩

/-- A raw candidate with NEGATIVE width (-80): degenerate, yet decoded and
emitted. -/
def negWidthTensor : OrtTensor :=
  ⟨[320, 320, -80, 40, 1], [1, 37, 1]⟩

/-- C7 counterexample.  The negative-width candidate is emitted into the
returned result with `bbox.x1 = 360 > 280 = bbox.x2`: the claimed ordering
`x1 ≤ x2` fails for detections decoded from degenerate raw boxes (the bounds
`0 ≤ x1, x2 ≤ imageWidth` still hold). -/
theorem bbox_order_counterexample :
    ((detectBubblesCore trivOracles negWidthTensor none 640 640 (1 / 4)
        (1 / 2)).bubbles.map fun d => (d.bbox.x1, d.bbox.x2)) = [(360, 280)] ∧
    ¬ ((360 : ℚ) ≤ 280) := by
  constructor
  · norm_num [detectBubblesCore, nms, nmsGo, List.insertionSort, List.orderedInsert,
      parseOutput, decodeBoxAt, featureAt, negWidthTensor, toOriginalX, toOriginalY,
      letterboxScale, letterboxOffsetX, letterboxOffsetY, INPUT_SIZE, min_def,
      max_def, List.range_succ, List.getD, List.filterMap_cons, List.filterMap_nil]
  · norm_num

/-- The concrete tensor for the C7 witness: one well-formed candidate with
positive raw width and height. -/
def wit7Tensor : OrtTensor :=
  ⟨[320, 320, 80, 40, 1], [1, 37, 1]⟩

/-- The detection that `wit7Tensor` decodes to on a 640×640 image. -/
def wit7Det : BubbleDetection :=
  ⟨1 / 2, 1 / 2, 1 / 8, 1 / 16, 1, ⟨280, 300, 360, 340⟩, none⟩

/-- Witness for the amended C7 at a concrete run: the returned detection is
inside `[0, 640]²`, and with nonnegative raw width/height its corners are
ordered. -/
theorem bbox_clamped_in_bounds_witness :
    (0 ≤ wit7Det.bbox.x1 ∧ wit7Det.bbox.x1 ≤ 640 ∧
     0 ≤ wit7Det.bbox.x2 ∧ wit7Det.bbox.x2 ≤ 640 ∧
     0 ≤ wit7Det.bbox.y1 ∧ wit7Det.bbox.y1 ≤ 640 ∧
     0 ≤ wit7Det.bbox.y2 ∧ wit7Det.bbox.y2 ≤ 640) ∧
    (wit7Det.bbox.x1 ≤ wit7Det.bbox.x2 ∧ wit7Det.bbox.y1 ≤ wit7Det.bbox.y2) := by
  have h := bbox_clamped_in_bounds trivOracles wit7Tensor none 640 640 (1 / 4) (1 / 2)
    (by norm_num) (by norm_num)
  have hb : (detectBubblesCore trivOracles wit7Tensor none 640 640 (1 / 4)
      (1 / 2)).bubbles = [wit7Det] := by
    norm_num [detectBubblesCore, nms, nmsGo, List.insertionSort, List.orderedInsert,
      parseOutput, decodeBoxAt, featureAt, wit7Tensor, wit7Det, toOriginalX,
      toOriginalY, letterboxScale, letterboxOffsetX, letterboxOffsetY, INPUT_SIZE,
      min_def, max_def, List.range_succ, List.getD, List.filterMap_cons,
      List.filterMap_nil]
  constructor
  · exact h.1 wit7Det (by rw [hb]; simp)
  · refine h.2 0 wit7Det ?_ ?_ ?_
    · norm_num [featureAt, wit7Tensor, List.getD]
    · norm_num [featureAt, wit7Tensor, List.getD]
    · norm_num [decodeBoxAt, featureAt, wit7Tensor, wit7Det, toOriginalX, toOriginalY,
        letterboxScale, letterboxOffsetX, letterboxOffsetY, INPUT_SIZE, min_def,
        max_def, List.getD]

end XSanctuary
